import Mathlib

/-!
# RTSP plugin: listener loop, deadline-enforcing connection, hooks and endpoints

A shallow embedding of `main.go` of the RTSP plugin.  The accept loop of
`ListenRtsp` is run over a finite list of results of `listener.Accept()`;
what the loop does to the outside world (sleeping, starting a session) is
recorded as a list of events, and the way the loop ends (a Go run-time panic,
a returned error, or still blocked in `Accept`) as an outcome.
-/

namespace Rtsp

/-! ## Machine integers and durations -/

/-- Two's-complement wrap of an integer into the range of Go's `int64`. -/
def wrapInt64 (x : Int) : Int := (x + 9223372036854775808) % 18446744073709551616 - 9223372036854775808

/-- A `time.Duration`: a signed 64-bit count of nanoseconds. -/
abbrev Duration := Int

/-- The constant `time.Millisecond`, in nanoseconds. -/
def Millisecond : Duration := 1000000

/-- The constant `time.Second`, in nanoseconds. -/
def Second : Duration := 1000000000

/-! ## Configuration -/

/-- The anonymous struct type of the package variable `config`. -/
structure Config where
  ListenAddr : String
  AutoPull : Bool
  RemoteAddr : String
  Timeout : Int
  Reconnect : Bool
  deriving DecidableEq, Repr

/-- The initial value of the package variable `config`. -/
def config : Config :=
  { ListenAddr := ":554", AutoPull := false,
    RemoteAddr := "rtsp://localhost/$\x7bstreamPath\x7d", Timeout := 0, Reconnect := false }

/-! ## Connections, errors and sessions -/

/-- The part of a `*net.TCPConn` the listener touches: the socket and its
`TCP_NODELAY` option (`true` means segments are sent at once, `false` means
Nagle's coalescing is on). -/
structure TCPConn where
  fd : Nat
  noDelay : Bool
  deriving DecidableEq, Repr

/-- The method `(*net.TCPConn).SetNoDelay`; the error it returns is dropped by the caller. -/
def TCPConn.SetNoDelay (c : TCPConn) (noDelay : Bool) : TCPConn := { c with noDelay := noDelay }

/-- A value of the interface type `net.Conn`, by dynamic type: the nil
interface, a `*net.TCPConn` (a pointer that is not nil), or a connection of
some other type. -/
inductive Conn where
  | nilConn
  | tcpConn (c : TCPConn)
  | otherConn (id : Nat)
  deriving DecidableEq, Repr

/-- A non-nil Go `error`: its message, whether its dynamic type implements
`net.Error`, and what `Temporary()` answers when it does. -/
structure GoError where
  msg : String
  isNetError : Bool
  temporary : Bool
  deriving DecidableEq, Repr

/-- The pair returned by one call of `listener.Accept()`. -/
structure AcceptResult where
  conn : Conn
  err : Option GoError
  deriving DecidableEq, Repr

/-- The struct `RichConn`: the embedded `net.Conn` and the timeout. -/
structure RichConn where
  conn : Conn
  timeout : Duration
  deriving DecidableEq, Repr

/-- The engine's `StreamInfo`, of which only the stream path is kept. -/
structure StreamInfo where
  StreamPath : String
  deriving DecidableEq, Repr

/-- The struct `RTSPInfo`. -/
structure RTSPInfo where
  URL : String
  SDPRaw : String
  InBytes : Int
  OutBytes : Int
  StreamInfo : Option StreamInfo
  deriving DecidableEq, Repr

/-- The struct `RTSPClientInfo`. -/
structure RTSPClientInfo where
  Agent : String
  Session : String
  authLine : String
  Seq : Int
  deriving DecidableEq, Repr

/-- The struct `RTSP`.  Fields whose types live in other packages (`RTP`,
`connRW`, `connWLock`, `Type`, `TransType`, the SDP maps, the UDP endpoints
and `Auth`) are left out; `Conn` is `none` for the nil pointer. -/
structure RTSP where
  RTSPInfo : RTSPInfo
  RTSPClientInfo : RTSPClientInfo
  ID : String
  Conn : Option RichConn
  nonce : String
  closeOld : Bool
  aacsent : Bool
  Timeout : Int
  aRTPChannel : Int
  aRTPControlChannel : Int
  vRTPChannel : Int
  vRTPControlChannel : Int
  deriving DecidableEq, Repr

/-- The zero value of `RTSP`, as made by `new(RTSP)`. -/
def RTSP.zero : RTSP :=
  { RTSPInfo := ⟨"", "", 0, 0, none⟩, RTSPClientInfo := ⟨"", "", "", 0⟩, ID := "", Conn := none,
    nonce := "", closeOld := false, aacsent := false, Timeout := 0,
    aRTPChannel := 0, aRTPControlChannel := 0, vRTPChannel := 0, vRTPControlChannel := 0 }

/-! ## The accept loop of `ListenRtsp` -/

/-- What the loop does that is visible outside it. -/
inductive Event where
  | sleep (d : Duration)
  | spawn (session : RTSP)
  deriving DecidableEq, Repr

/-- The loop variables that live across iterations: `tempDelay`, and the
number of identifiers drawn from `shortid` so far. -/
structure LoopState where
  tempDelay : Duration
  drawn : Nat
  deriving DecidableEq, Repr

/-- How a run of `ListenRtsp` stands when the given accept results are used up. -/
inductive Outcome where
  | panicked
  | returned (err : GoError)
  | accepting (st : LoopState)
  deriving DecidableEq, Repr

/-- The result of one iteration of the `for` loop. -/
inductive Step where
  | panic
  | ret (err : GoError)
  | sleepRetry (d : Duration) (st : LoopState)
  | spawned (session : RTSP) (st : LoopState)
  deriving DecidableEq, Repr

/-- The new value of `tempDelay` after a temporary accept error (lines 89-96). -/
def nextDelay (tempDelay : Duration) : Duration :=
  let d := if tempDelay = 0 then wrapInt64 (5 * Millisecond) else wrapInt64 (tempDelay * 2)
  if d > 1 * Second then 1 * Second else d

/-- One iteration of the loop body (lines 85-115).  The type assertion
`conn.(*net.TCPConn)` comes first and panics unless `conn` holds a
`*net.TCPConn`; `SetNoDelay(false)` is then called on it; only after that is
`err` looked at. -/
def acceptStep (cfg : Config) (gen : Nat → String) (st : LoopState) (r : AcceptResult) : Step :=
  match r.conn with
  | Conn.tcpConn c =>
    let conn := Conn.tcpConn (c.SetNoDelay false)
    match r.err with
    | some err =>
      if err.isNetError && err.temporary then
        let tempDelay := nextDelay st.tempDelay
        Step.sleepRetry tempDelay { st with tempDelay := tempDelay }
      else
        Step.ret err
    | none =>
      let timeoutTCPConn : RichConn := ⟨conn, wrapInt64 (cfg.Timeout * Millisecond)⟩
      Step.spawned
        { RTSP.zero with
          ID := gen st.drawn
          Conn := some timeoutTCPConn
          Timeout := cfg.Timeout
          vRTPChannel := -1
          vRTPControlChannel := -1
          aRTPChannel := -1
          aRTPControlChannel := -1 }
        { tempDelay := 0, drawn := st.drawn + 1 }
  | _ => Step.panic

/-- The `for` loop, run over the results of the successive `Accept` calls. -/
def acceptLoop (cfg : Config) (gen : Nat → String) : List AcceptResult → LoopState → List Event × Outcome
  | [], st => ([], Outcome.accepting st)
  | r :: rest, st =>
    match acceptStep cfg gen st r with
    | Step.panic => ([], Outcome.panicked)
    | Step.ret err => ([], Outcome.returned err)
    | Step.sleepRetry d st1 =>
      let res := acceptLoop cfg gen rest st1
      (Event.sleep d :: res.1, res.2)
    | Step.spawned s st1 =>
      let res := acceptLoop cfg gen rest st1
      (Event.spawn s :: res.1, res.2)

/-- The function `ListenRtsp`: `listenErr` is the error of `net.Listen`, `gen`
the successive results of `shortid.MustGenerate()`, `accepts` the results of
the successive `Accept` calls. -/
def ListenRtsp (cfg : Config) (listenErr : Option GoError) (gen : Nat → String)
    (accepts : List AcceptResult) : List Event × Outcome :=
  match listenErr with
  | some err => ([], Outcome.returned err)
  | none => acceptLoop cfg gen accepts { tempDelay := 0, drawn := 0 }

/-- The sessions started by a run, in order. -/
def spawnedSessions : List Event → List RTSP
  | [] => []
  | Event.spawn s :: rest => s :: spawnedSessions rest
  | Event.sleep _ :: rest => spawnedSessions rest

/-- The delays slept by a run, in order. -/
def sleptDelays : List Event → List Duration
  | [] => []
  | Event.sleep d :: rest => d :: sleptDelays rest
  | Event.spawn _ :: rest => sleptDelays rest

/-- Whether an accept result carries a temporary error, in the sense of line 88. -/
def AcceptResult.isTemporary (r : AcceptResult) : Bool :=
  match r.err with
  | some err => err.isNetError && err.temporary
  | none => false

/-- The number of temporary accept errors in a row at the end of the accept
results seen so far, counted from `k` before them; any other result starts
the count again. -/
def consecutiveTemporary : Nat → List AcceptResult → Nat
  | k, [] => k
  | k, r :: rest => consecutiveTemporary (if r.isTemporary then k + 1 else 0) rest

/-- The backoff of the specification: 5ms doubled `k - 1` times, at most 1s. -/
def specDelay (k : Nat) : Duration := min (5 * Millisecond * 2 ^ (k - 1)) Second

/-! ## The deadline-enforcing connection `RichConn` -/

/-- A `time.Time`, as nanoseconds counted from the zero time `time.Time{}`. -/
structure Time where
  ns : Int
  deriving DecidableEq, Repr

/-- The zero value `var t time.Time`, which a connection reads as "no deadline". -/
def Time.zero : Time := ⟨0⟩

/-- The method `Time.Add` (saturation at the ends of the time range is left out). -/
def Time.Add (t : Time) (d : Duration) : Time := ⟨t.ns + d⟩

/-- The byte count and error returned by a `Read` or a `Write`. -/
structure IOResult where
  n : Int
  err : Option GoError
  deriving DecidableEq, Repr

/-- The methods of the embedded `net.Conn` that `RichConn` calls, over the
state `σ` of that connection.  `Read` also gives the buffer as filled. -/
structure NetConn (σ : Type) where
  Read : List Nat → σ → (IOResult × List Nat) × σ
  Write : List Nat → σ → IOResult × σ
  SetReadDeadline : Time → σ → Option GoError × σ
  SetWriteDeadline : Time → σ → Option GoError × σ

/-- The method `(*RichConn).Read` (lines 166-174); `now` is the value of
`time.Now()`.  The error of `SetReadDeadline` is dropped, as in the source. -/
def RichConn.Read {σ : Type} (under : NetConn σ) (conn : RichConn) (now : Time) (b : List Nat)
    (s : σ) : (IOResult × List Nat) × σ :=
  let s1 :=
    if conn.timeout > 0 then
      (under.SetReadDeadline (now.Add conn.timeout) s).2
    else
      let t : Time := Time.zero
      (under.SetReadDeadline t s).2
  under.Read b s1

/-- The method `(*RichConn).Write` (lines 176-184). -/
def RichConn.Write {σ : Type} (under : NetConn σ) (conn : RichConn) (now : Time) (b : List Nat)
    (s : σ) : IOResult × σ :=
  let s1 :=
    if conn.timeout > 0 then
      (under.SetWriteDeadline (now.Add conn.timeout) s).2
    else
      let t : Time := Time.zero
      (under.SetWriteDeadline t s).2
  under.Write b s1

/-- A call made on a connection. -/
inductive ConnCall where
  | setReadDeadline (t : Time)
  | setWriteDeadline (t : Time)
  | read (len : Nat)
  | write (b : List Nat)
  deriving DecidableEq, Repr

/-- A connection that records the calls made on it, reads zeros into the
whole buffer and writes the whole buffer. -/
def recordingConn : NetConn (List ConnCall) :=
  { Read := fun b s => ((⟨b.length, none⟩, List.replicate b.length 0), s ++ [ConnCall.read b.length])
    Write := fun b s => (⟨b.length, none⟩, s ++ [ConnCall.write b])
    SetReadDeadline := fun t s => (none, s ++ [ConnCall.setReadDeadline t])
    SetWriteDeadline := fun t s => (none, s ++ [ConnCall.setWriteDeadline t]) }

/-! ## The subscribe hook -/

/-- The engine's `Subscriber`, of which the hook reads the stream path and
whether the `Publisher` pointer is nil (`none`). -/
structure Subscriber where
  StreamPath : String
  Publisher : Option String
  deriving DecidableEq, Repr

/-- A call `new(RTSP).PullStream(streamPath, rtspUrl)`. -/
structure PullCall where
  streamPath : String
  rtspUrl : String
  deriving DecidableEq, Repr

/-- The scan of `strings.Replace(s, old, new, -1)` for a non-empty `old`:
left to right, an occurrence of `old` gives `new` and its remaining
characters are passed over (`skip` counts them), any other character is kept. -/
def replaceScan (old new : List Char) : Nat → List Char → List Char
  | _, [] => []
  | skip + 1, _ :: cs => replaceScan old new skip cs
  | 0, c :: cs =>
    if old.isPrefixOf (c :: cs) then new ++ replaceScan old new (old.length - 1) cs
    else c :: replaceScan old new 0 cs

/-- The library call `strings.Replace(s, old, new, -1)`, for a non-empty `old`. -/
def replaceAll (s old new : String) : String :=
  if old = new then s else String.mk (replaceScan old.data new.data 0 s.data)

/-- The placeholder of the remote-address template. -/
def streamPathVar : String := "$\x7bstreamPath\x7d"

/-- The hook added to `OnSubscribeHooks` (lines 42-46): the calls of `PullStream` it makes. -/
def onSubscribe (cfg : Config) (s : Subscriber) : List PullCall :=
  if cfg.AutoPull && s.Publisher.isNone then
    [⟨s.StreamPath, replaceAll cfg.RemoteAddr streamPathVar s.StreamPath⟩]
  else []

/-! ## The `/rtsp/pull` endpoint -/

/-- The handler of `/rtsp/pull` (lines 61-69): the body written, given the
query values and the method `PullStream`, whose error is given by its message
(`none` for a nil error).  `%s` puts the message in as it is. -/
def pullHandler (PullStream : String → String → Option String) (target streamPath : String) :
    String :=
  match PullStream streamPath target with
  | none => "\x7b\"code\":0\x7d"
  | some msg => "\x7b\"code\":1,\"msg\":\"" ++ msg ++ "\"\x7d"

/-! ### Reading a JSON status object (RFC 8259, flat objects) -/

/-- A JSON value of a status object: a string or an integer. -/
inductive JValue where
  | str (s : String)
  | num (n : Int)
  deriving DecidableEq, Repr

/-- JSON white space. -/
def isJsonWs (c : Char) : Bool := c = ' ' || c = '\t' || c = '\n' || c = '\r'

/-- Drop leading JSON white space. -/
def skipWs : List Char → List Char
  | [] => []
  | c :: cs => if isJsonWs c then skipWs cs else c :: cs

/-- The value of a hexadecimal digit. -/
def hexVal (c : Char) : Option Nat :=
  if 48 ≤ c.toNat ∧ c.toNat ≤ 57 then some (c.toNat - 48)
  else if 97 ≤ c.toNat ∧ c.toNat ≤ 102 then some (c.toNat - 87)
  else if 65 ≤ c.toNat ∧ c.toNat ≤ 70 then some (c.toNat - 55)
  else none

/-- The character a two-character JSON escape stands for. -/
def simpleEscape (e : Char) : Option Char :=
  if e = '"' then some '"'
  else if e = '\\' then some '\\'
  else if e = '/' then some '/'
  else if e = 'b' then some (Char.ofNat 8)
  else if e = 'f' then some (Char.ofNat 12)
  else if e = 'n' then some '\n'
  else if e = 'r' then some '\r'
  else if e = 't' then some '\t'
  else none

/-- Decode a JSON string literal whose opening quote has been read: the text
it stands for and the input after its closing quote.  A raw control
character, an unknown escape or a missing closing quote is an error. -/
def jsonString : List Char → Option (List Char × List Char)
  | [] => none
  | c :: rest =>
    if c = '"' then some ([], rest)
    else if c = '\\' then
      match rest with
      | [] => none
      | e :: rest2 =>
        if e = 'u' then
          match rest2 with
          | h1 :: h2 :: h3 :: h4 :: rest3 =>
            match hexVal h1, hexVal h2, hexVal h3, hexVal h4, jsonString rest3 with
            | some a, some b, some c, some d, some (s, r) =>
              some (Char.ofNat (((a * 16 + b) * 16 + c) * 16 + d) :: s, r)
            | _, _, _, _, _ => none
          | _ => none
        else
          match simpleEscape e, jsonString rest2 with
          | some ch, some (s, r) => some (ch :: s, r)
          | _, _ => none
    else if c.toNat < 32 then none
    else
      match jsonString rest with
      | some (s, r) => some (c :: s, r)
      | none => none

/-- Read the digits at the front of the input, onto the number read so far. -/
def jsonDigits : Nat → List Char → Nat × List Char
  | acc, [] => (acc, [])
  | acc, c :: cs =>
    if 48 ≤ c.toNat ∧ c.toNat ≤ 57 then jsonDigits (acc * 10 + (c.toNat - 48)) cs else (acc, c :: cs)

/-- Read a JSON value: a string literal or an integer. -/
def jsonValue : List Char → Option (JValue × List Char)
  | [] => none
  | c :: cs =>
    if c = '"' then
      match jsonString cs with
      | some (s, r) => some (JValue.str (String.mk s), r)
      | none => none
    else if c = '-' then
      match cs with
      | d :: _ =>
        if 48 ≤ d.toNat ∧ d.toNat ≤ 57 then
          let res := jsonDigits 0 cs
          some (JValue.num (-(res.1 : Int)), res.2)
        else none
      | [] => none
    else if 48 ≤ c.toNat ∧ c.toNat ≤ 57 then
      let res := jsonDigits 0 (c :: cs)
      some (JValue.num (res.1 : Int), res.2)
    else none

/-- Read the members of an object after its opening brace has been read and
a first member is due; `fuel` bounds the number of members. -/
def jsonMembers : Nat → List Char → Option (List (String × JValue) × List Char)
  | 0, _ => none
  | fuel + 1, cs =>
    match skipWs cs with
    | c :: cs1 =>
      if c = '"' then
        match jsonString cs1 with
        | some (key, cs2) =>
          match skipWs cs2 with
          | colon :: cs3 =>
            if colon = ':' then
              match jsonValue (skipWs cs3) with
              | some (v, cs4) =>
                match skipWs cs4 with
                | sep :: cs5 =>
                  if sep = '\x7d' then some ([(String.mk key, v)], cs5)
                  else if sep = ',' then
                    match jsonMembers fuel cs5 with
                    | some (more, cs6) => some ((String.mk key, v) :: more, cs6)
                    | none => none
                  else none
                | [] => none
              | none => none
            else none
          | [] => none
        | none => none
      else none
    | [] => none

/-- Read a whole text as one flat JSON object: its members in order, or
`none` when the text is not such an object. -/
def jsonObject (body : String) : Option (List (String × JValue)) :=
  match skipWs body.data with
  | c :: cs =>
    if c = '\x7b' then
      match skipWs cs with
      | d :: cs1 =>
        if d = '\x7d' then (if skipWs cs1 = [] then some [] else none)
        else
          match jsonMembers body.length (d :: cs1) with
          | some (ms, r) => if skipWs r = [] then some ms else none
          | none => none
      | [] => none
    else none
  | [] => none

/-- The value of a member of an object; of members with the same name the last counts. -/
def jsonField (name : String) : List (String × JValue) → Option JValue
  | [] => none
  | (k, v) :: rest =>
    match jsonField name rest with
    | some w => some w
    | none => if k = name then some v else none

/-- A status object as a reader of the response sees it: the `code` and,
when there is one, the text of `msg`; `none` when the body is not well-formed. -/
def readStatus (body : String) : Option (Int × Option String) :=
  match jsonObject body with
  | none => none
  | some ms =>
    match jsonField "code" ms with
    | some (JValue.num code) =>
      match jsonField "msg" ms with
      | some (JValue.str m) => some (code, some m)
      | some (JValue.num _) => none
      | none => some (code, none)
    | _ => none

/-! ## The `/rtsp/list` feed -/

/-- The contents of a `sync.Map` from identifiers to sessions. -/
abbrev SyncMap := List (String × RTSP)

/-- The method `sync.Map.Range`: `f` is called on each entry in turn,
threading the state it updates, until it answers `false`. -/
def SyncMap.Range {σ : Type} (f : String → RTSP → σ → Bool × σ) : SyncMap → σ → σ
  | [], acc => acc
  | (key, value) :: rest, acc =>
    let res := f key value acc
    if res.1 then SyncMap.Range f rest res.2 else res.2

/-- One snapshot of the `/rtsp/list` feed (lines 51-57): the value `info`
handed to `sse.WriteJSON`. -/
def listSnapshot (collection : SyncMap) : List RTSPInfo :=
  SyncMap.Range (fun _ value info => (true, info ++ [value.RTSPInfo])) collection []

/-- The `TCP_NODELAY` option of the connection a session holds, when it holds
a TCP connection. -/
def sessionNoDelay (s : RTSP) : Option Bool :=
  match s.Conn with
  | some ⟨Conn.tcpConn c, _⟩ => some c.noDelay
  | _ => none

/-- The session that `ListenRtsp` starts, under the initial configuration
and with identifier `"id"`, for a first connection accepted on socket 3. -/
def sampleSession : RTSP :=
  { RTSP.zero with
    ID := "id", Conn := some ⟨Conn.tcpConn ⟨3, false⟩, 0⟩, Timeout := 0,
    vRTPChannel := -1, vRTPControlChannel := -1, aRTPChannel := -1, aRTPControlChannel := -1 }

/-- The deadline of the specification: none (the zero time) for a zero
timeout, otherwise "now + configured timeout". -/
def specDeadline (timeout : Duration) (now : Time) : Time :=
  if timeout = 0 then Time.zero else now.Add timeout

/-- The pieces of a template put together with `mid` between each two of them. -/
def joinWith (mid : List Char) : List (List Char) → List Char
  | [] => []
  | [a] => a
  | a :: b :: rest => a ++ mid ++ joinWith mid (b :: rest)

/-! ## The backoff arithmetic -/

theorem wrapInt64_of_small (x : Int) (h0 : 0 ≤ x) (h1 : x < 9223372036854775808) :
    wrapInt64 x = x := by
  unfold wrapInt64
  omega

theorem nextDelay_of_pos (v : Int) (h0 : 0 < v) (h1 : v ≤ 1000000000) :
    nextDelay v = min (2 * v) 1000000000 := by
  have hne : v ≠ 0 := by omega
  have hw : wrapInt64 (v * 2) = v * 2 := wrapInt64_of_small _ (by omega) (by omega)
  simp only [nextDelay, if_neg hne, hw, Second]
  by_cases h : v * 2 > 1 * 1000000000
  · rw [if_pos h, min_eq_right (by omega)]; norm_num
  · rw [if_neg h, min_eq_left (by omega)]; ring

theorem specDelay_eq (k : Nat) : specDelay k = min (5000000 * 2 ^ (k - 1)) 1000000000 := by
  simp [specDelay, Millisecond, Second]

theorem specDelay_pos (k : Nat) : 0 < specDelay k := by
  rw [specDelay_eq]
  have h2 : (0 : Int) < 5000000 * 2 ^ (k - 1) := by positivity
  exact lt_min h2 (by norm_num)

theorem specDelay_le (k : Nat) : specDelay k ≤ 1000000000 := by
  rw [specDelay_eq]
  exact min_le_right _ _

theorem specDelay_succ (k : Nat) :
    specDelay (k + 2) = min (2 * specDelay (k + 1)) 1000000000 := by
  rw [specDelay_eq, specDelay_eq]
  have e1 : k + 2 - 1 = k + 1 := by omega
  have e2 : k + 1 - 1 = k := by omega
  have e3 : (5000000 : Int) * 2 ^ (k + 1) = 2 * (5000000 * 2 ^ k) := by ring
  rw [e1, e2, e3]
  have hpos : (0 : Int) < 5000000 * 2 ^ k := by positivity
  generalize (5000000 : Int) * 2 ^ k = a at hpos
  clear e1 e2 e3
  rcases le_total a 1000000000 with h | h
  · rw [min_eq_left h]
  · rw [min_eq_right h, min_eq_right (show (1000000000 : Int) ≤ 2 * a by omega)]
    norm_num

theorem nextDelay_specDelay (k : Nat) :
    nextDelay (if k = 0 then 0 else specDelay k) = specDelay (k + 1) := by
  cases k with
  | zero => decide
  | succ m =>
    rw [if_neg (Nat.succ_ne_zero m), nextDelay_of_pos _ (specDelay_pos _) (specDelay_le _),
      specDelay_succ]

/-! ## What one iteration of the accept loop does -/

theorem acceptStep_sleepRetry {cfg : Config} {gen : Nat → String} {st st1 : LoopState}
    {r : AcceptResult} {d : Duration} (h : acceptStep cfg gen st r = Step.sleepRetry d st1) :
    r.isTemporary = true ∧ d = nextDelay st.tempDelay ∧ st1.tempDelay = d := by
  unfold acceptStep at h
  unfold AcceptResult.isTemporary
  cases hc : r.conn with
  | nilConn => simp [hc] at h
  | otherConn id => simp [hc] at h
  | tcpConn c =>
    cases he : r.err with
    | none => simp [hc, he] at h
    | some err =>
      by_cases ht : (err.isNetError && err.temporary) = true
      · simp only [hc, he, ht, if_true] at h
        injection h with h1 h2
        subst h1 h2
        exact ⟨ht, rfl, rfl⟩
      · simp [hc, he, ht] at h

theorem acceptStep_spawned {cfg : Config} {gen : Nat → String} {st st1 : LoopState}
    {r : AcceptResult} {s : RTSP} (h : acceptStep cfg gen st r = Step.spawned s st1) :
    r.isTemporary = false ∧ st1.tempDelay = 0 ∧ st1.drawn = st.drawn + 1 ∧ s.ID = gen st.drawn ∧
      (∃ c : TCPConn, s.Conn = some ⟨Conn.tcpConn ⟨c.fd, false⟩, wrapInt64 (cfg.Timeout * Millisecond)⟩) ∧
      s.vRTPChannel = -1 ∧ s.vRTPControlChannel = -1 ∧ s.aRTPChannel = -1 ∧
      s.aRTPControlChannel = -1 := by
  unfold acceptStep at h
  unfold AcceptResult.isTemporary
  cases hc : r.conn with
  | nilConn => simp [hc] at h
  | otherConn id => simp [hc] at h
  | tcpConn c =>
    cases he : r.err with
    | some err =>
      by_cases ht : (err.isNetError && err.temporary) = true
      · simp [hc, he, ht] at h
      · simp [hc, he, ht] at h
    | none =>
      simp only [hc, he] at h
      injection h with h1 h2
      subst h1 h2
      exact ⟨rfl, rfl, rfl, rfl, ⟨c, rfl⟩, rfl, rfl, rfl, rfl⟩

theorem acceptLoop_tempDelay (cfg : Config) (gen : Nat → String) :
    ∀ (pre : List AcceptResult) (st st1 : LoopState) (k : Nat),
      st.tempDelay = (if k = 0 then 0 else specDelay k) →
      (acceptLoop cfg gen pre st).2 = Outcome.accepting st1 →
      st1.tempDelay = (if consecutiveTemporary k pre = 0 then 0
        else specDelay (consecutiveTemporary k pre)) := by
  intro pre
  induction pre with
  | nil =>
    intro st st1 k hk h
    simp only [acceptLoop] at h
    injection h with h
    subst h
    simpa [consecutiveTemporary] using hk
  | cons r rest ih =>
    intro st st1 k hk h
    unfold acceptLoop at h
    cases hs : acceptStep cfg gen st r with
    | panic => simp [hs] at h
    | ret err => simp [hs] at h
    | sleepRetry d st2 =>
      simp only [hs] at h
      obtain ⟨ht, hd, hst⟩ := acceptStep_sleepRetry hs
      have hk2 : st2.tempDelay = (if k + 1 = 0 then 0 else specDelay (k + 1)) := by
        rw [if_neg (Nat.succ_ne_zero k), hst, hd, hk, nextDelay_specDelay]
      have := ih st2 st1 (k + 1) hk2 h
      simpa [consecutiveTemporary, ht] using this
    | spawned s st2 =>
      simp only [hs] at h
      obtain ⟨ht, hst, _⟩ := acceptStep_spawned hs
      have hk2 : st2.tempDelay = (if 0 = 0 then 0 else specDelay 0) := by simp [hst]
      have := ih st2 st1 0 hk2 h
      simpa [consecutiveTemporary, ht] using this

theorem acceptLoop_spawned (cfg : Config) (gen : Nat → String) :
    ∀ (accepts : List AcceptResult) (st : LoopState) (s : RTSP),
      s ∈ spawnedSessions (acceptLoop cfg gen accepts st).1 →
      ∃ (st0 st1 : LoopState) (r : AcceptResult), acceptStep cfg gen st0 r = Step.spawned s st1 := by
  intro accepts
  induction accepts with
  | nil => intro st s h; simp [acceptLoop, spawnedSessions] at h
  | cons r rest ih =>
    intro st s h
    unfold acceptLoop at h
    cases hs : acceptStep cfg gen st r with
    | panic => simp [hs, spawnedSessions] at h
    | ret err => simp [hs, spawnedSessions] at h
    | sleepRetry d st2 =>
      simp only [hs, spawnedSessions] at h
      exact ih st2 s h
    | spawned t st2 =>
      simp only [hs, spawnedSessions, List.mem_cons] at h
      rcases h with h | h
      · subst h; exact ⟨st, st2, r, hs⟩
      · exact ih st2 s h

theorem ListenRtsp_spawned {cfg : Config} {listenErr : Option GoError} {gen : Nat → String}
    {accepts : List AcceptResult} {s : RTSP}
    (h : s ∈ spawnedSessions (ListenRtsp cfg listenErr gen accepts).1) :
    ∃ (st0 st1 : LoopState) (r : AcceptResult), acceptStep cfg gen st0 r = Step.spawned s st1 := by
  unfold ListenRtsp at h
  cases listenErr with
  | some err => simp [spawnedSessions] at h
  | none => exact acceptLoop_spawned cfg gen accepts _ s h

theorem acceptLoop_snoc (cfg : Config) (gen : Nat → String) (r : AcceptResult) :
    ∀ (pre : List AcceptResult) (st0 st : LoopState),
      (acceptLoop cfg gen pre st0).2 = Outcome.accepting st →
      acceptLoop cfg gen (pre ++ [r]) st0 =
        ((acceptLoop cfg gen pre st0).1 ++ (acceptLoop cfg gen [r] st).1,
          (acceptLoop cfg gen [r] st).2) := by
  intro pre
  induction pre with
  | nil =>
    intro st0 st h
    simp only [acceptLoop] at h
    injection h with h
    subst h
    simp [acceptLoop]
  | cons q rest ih =>
    intro st0 st h
    unfold acceptLoop at h
    simp only [List.cons_append]
    rw [acceptLoop]
    conv_rhs => rw [acceptLoop]
    cases hs : acceptStep cfg gen st0 q with
    | panic => simp [hs] at h
    | ret err => simp [hs] at h
    | sleepRetry d st2 =>
      simp only [hs] at h ⊢
      rw [ih st2 st h]
      simp
    | spawned s st2 =>
      simp only [hs] at h ⊢
      rw [ih st2 st h]
      simp

/-! ## The claims about the listener loop -/

theorem acceptStep_temporary_with_conn (cfg : Config) (gen : Nat → String) (st : LoopState)
    (c : TCPConn) (msg : String) :
    acceptStep cfg gen st ⟨Conn.tcpConn c, some ⟨msg, true, true⟩⟩
      = Step.sleepRetry (nextDelay st.tempDelay) { st with tempDelay := nextDelay st.tempDelay } := by
  simp [acceptStep]

theorem acceptStep_fatal_with_conn (cfg : Config) (gen : Nat → String) (st : LoopState)
    (c : TCPConn) (msg : String) (isNetError : Bool) :
    acceptStep cfg gen st ⟨Conn.tcpConn c, some ⟨msg, isNetError, false⟩⟩
      = Step.ret ⟨msg, isNetError, false⟩ := by
  simp [acceptStep]

/-- C1, the code at the failing input: when `Accept` gives a temporary error
and no connection (the nil interface), the loop of `ListenRtsp` panics in the
type assertion: it has slept for no delay, it calls `Accept` no more (the
later accept results `rest` play no part), and the listener is gone. -/
theorem ListenRtsp_temporary_error_panics (cfg : Config) (gen : Nat → String) (msg : String)
    (rest : List AcceptResult) :
    ListenRtsp cfg none gen (⟨Conn.nilConn, some ⟨msg, true, true⟩⟩ :: rest)
      = ([], Outcome.panicked) := by
  simp [ListenRtsp, acceptLoop, acceptStep]

/-- The arithmetic of lines 89-96, for an iteration that gets as far as the
sleep: when the loop has handled the accept results `pre` and is still
accepting, and it sleeps on the next accept result, the delay is
`min (5ms * 2 ^ (k - 1)) 1s`, where `k` counts this temporary error and the
temporary errors in a row just before it. -/
theorem ListenRtsp_backoff (cfg : Config) (gen : Nat → String) (pre : List AcceptResult)
    (st : LoopState) (r : AcceptResult) (d : Duration) (st1 : LoopState)
    (hpre : (ListenRtsp cfg none gen pre).2 = Outcome.accepting st)
    (hstep : acceptStep cfg gen st r = Step.sleepRetry d st1) :
    d = specDelay (consecutiveTemporary 0 pre + 1) ∧ d ≤ Second ∧ st1.tempDelay = d ∧
      st.tempDelay = (if consecutiveTemporary 0 pre = 0 then 0
        else specDelay (consecutiveTemporary 0 pre)) ∧
      ListenRtsp cfg none gen (pre ++ [r])
        = ((ListenRtsp cfg none gen pre).1 ++ [Event.sleep d], Outcome.accepting st1) := by
  simp only [ListenRtsp] at hpre ⊢
  have hst := acceptLoop_tempDelay cfg gen pre ⟨0, 0⟩ st 0 (by simp) hpre
  obtain ⟨_, hd, hst1⟩ := acceptStep_sleepRetry hstep
  have hd2 : d = specDelay (consecutiveTemporary 0 pre + 1) := by
    rw [hd, hst, nextDelay_specDelay]
  refine ⟨hd2, ?_, hst1, hst, ?_⟩
  · rw [hd2]; exact specDelay_le _
  · rw [acceptLoop_snoc cfg gen r pre _ st hpre]
    simp [acceptLoop, hstep]

/-- C2, the code at the failing input: a connection is accepted and the next
`Accept` gives a temporary error and no connection (the nil interface), the
first error after a successful accept.  The loop of `ListenRtsp` panics in
the type assertion: the run has slept for no delay at all, where 5ms is due,
and the same holds when the error is the first result of the listener. -/
theorem ListenRtsp_backoff_not_slept (cfg : Config) (gen : Nat → String) (c : TCPConn)
    (msg : String) (rest : List AcceptResult) :
    (sleptDelays (ListenRtsp cfg none gen
        (⟨Conn.tcpConn c, none⟩ :: ⟨Conn.nilConn, some ⟨msg, true, true⟩⟩ :: rest)).1 = [] ∧
      (ListenRtsp cfg none gen
        (⟨Conn.tcpConn c, none⟩ :: ⟨Conn.nilConn, some ⟨msg, true, true⟩⟩ :: rest)).2
        = Outcome.panicked) ∧
    (sleptDelays (ListenRtsp cfg none gen
        (⟨Conn.nilConn, some ⟨msg, true, true⟩⟩ :: rest)).1 = [] ∧
      (ListenRtsp cfg none gen (⟨Conn.nilConn, some ⟨msg, true, true⟩⟩ :: rest)).2
        = Outcome.panicked) := by
  simp [ListenRtsp, acceptLoop, acceptStep, sleptDelays]

/-- C3, the code at the failing input: when `Accept` gives a non-temporary
error and no connection (the nil interface), the loop of `ListenRtsp` panics
in the type assertion, and so does not return the error to its caller. -/
theorem ListenRtsp_fatal_error_panics (cfg : Config) (gen : Nat → String) (msg : String)
    (isNetError : Bool) (rest : List AcceptResult) :
    ListenRtsp cfg none gen (⟨Conn.nilConn, some ⟨msg, isNetError, false⟩⟩ :: rest)
        = ([], Outcome.panicked) ∧
      (ListenRtsp cfg none gen (⟨Conn.nilConn, some ⟨msg, isNetError, false⟩⟩ :: rest)).2
        ≠ Outcome.returned ⟨msg, isNetError, false⟩ := by
  simp [ListenRtsp, acceptLoop, acceptStep]

/-- C4 as stated fails: a connection that arrives with the no-delay option on
is handed to its session with the option off. -/
theorem ListenRtsp_noDelay_counterexample :
    (spawnedSessions (ListenRtsp config none (fun _ => "id")
      [⟨Conn.tcpConn ⟨3, true⟩, none⟩]).1).map sessionNoDelay = [some false] := by
  decide

/-- C4 as amended: every session started by `ListenRtsp` holds a TCP
connection whose no-delay option is `false`: `SetNoDelay(false)` has been
called on it, so delay coalescing is on. -/
theorem ListenRtsp_noDelay_false (cfg : Config) (listenErr : Option GoError) (gen : Nat → String)
    (accepts : List AcceptResult) (s : RTSP)
    (h : s ∈ spawnedSessions (ListenRtsp cfg listenErr gen accepts).1) :
    sessionNoDelay s = some false := by
  obtain ⟨st0, st1, r, hs⟩ := ListenRtsp_spawned h
  obtain ⟨_, _, _, _, ⟨c, hc⟩, _⟩ := acceptStep_spawned hs
  simp [sessionNoDelay, hc]

/-- C4 as amended, an instance. -/
theorem ListenRtsp_noDelay_false_witness :
    sessionNoDelay sampleSession = some false :=
  ListenRtsp_noDelay_false config none (fun _ => "id") [⟨Conn.tcpConn ⟨3, true⟩, none⟩]
    sampleSession (by decide)

/-- C6: every session started by `ListenRtsp` has its four channel fields
equal to -1, and so different from every channel number `ch ≥ 0`. -/
theorem ListenRtsp_channels_unassigned (cfg : Config) (listenErr : Option GoError)
    (gen : Nat → String) (accepts : List AcceptResult) (s : RTSP) (ch : Int)
    (h : s ∈ spawnedSessions (ListenRtsp cfg listenErr gen accepts).1) (hch : 0 ≤ ch) :
    (s.vRTPChannel = -1 ∧ s.vRTPControlChannel = -1 ∧ s.aRTPChannel = -1 ∧
        s.aRTPControlChannel = -1) ∧
      (s.vRTPChannel ≠ ch ∧ s.vRTPControlChannel ≠ ch ∧ s.aRTPChannel ≠ ch ∧
        s.aRTPControlChannel ≠ ch) := by
  obtain ⟨st0, st1, r, hs⟩ := ListenRtsp_spawned h
  obtain ⟨_, _, _, _, _, h1, h2, h3, h4⟩ := acceptStep_spawned hs
  rw [h1, h2, h3, h4]
  refine ⟨⟨rfl, rfl, rfl, rfl⟩, ?_, ?_, ?_, ?_⟩ <;> omega

/-- C6, an instance: the session of one accepted connection, against channel 0. -/
theorem ListenRtsp_channels_unassigned_witness :
    (sampleSession.vRTPChannel = -1 ∧ sampleSession.vRTPControlChannel = -1 ∧
        sampleSession.aRTPChannel = -1 ∧ sampleSession.aRTPControlChannel = -1) ∧
      (sampleSession.vRTPChannel ≠ 0 ∧ sampleSession.vRTPControlChannel ≠ 0 ∧
        sampleSession.aRTPChannel ≠ 0 ∧ sampleSession.aRTPControlChannel ≠ 0) :=
  ListenRtsp_channels_unassigned config none (fun _ => "id") [⟨Conn.tcpConn ⟨3, true⟩, none⟩]
    sampleSession 0 (by decide) (by decide)

/-! ## The deadline-enforcing connection -/

/-- C5: for a timeout that is positive or zero, `Read` (and `Write`) of a
`RichConn` is the `Read` (the `Write`) of the underlying connection, on the
same buffer, made after `SetReadDeadline` (`SetWriteDeadline`) with
`now + timeout` for a positive timeout and with the zero time for a zero one:
the byte count, the error and the state of the connection are the same. -/
theorem RichConn_deadline {σ : Type} (under : NetConn σ) (conn : RichConn) (now : Time)
    (b : List Nat) (s : σ) (h : 0 ≤ conn.timeout) :
    RichConn.Read under conn now b s
        = under.Read b (under.SetReadDeadline (specDeadline conn.timeout now) s).2 ∧
      RichConn.Write under conn now b s
        = under.Write b (under.SetWriteDeadline (specDeadline conn.timeout now) s).2 := by
  unfold RichConn.Read RichConn.Write specDeadline
  by_cases h0 : conn.timeout = 0
  · simp [h0]
  · have hp : conn.timeout > 0 := lt_of_le_of_ne h (Ne.symm h0)
    simp [h0, hp]

/-- C5, two instances on a connection that records its calls: with a timeout
of 30s and the clock at 1000ns the deadline set is 30000001000ns, and with a
zero timeout it is the zero time; the read fills the whole buffer. -/
theorem RichConn_deadline_witness :
    (RichConn.Read recordingConn ⟨Conn.tcpConn ⟨3, false⟩, 30000000000⟩ ⟨1000⟩ [7, 7] []
        = ((⟨2, none⟩, [0, 0]), [ConnCall.setReadDeadline ⟨30000001000⟩, ConnCall.read 2]) ∧
      RichConn.Write recordingConn ⟨Conn.tcpConn ⟨3, false⟩, 30000000000⟩ ⟨1000⟩ [7, 7] []
        = (⟨2, none⟩, [ConnCall.setWriteDeadline ⟨30000001000⟩, ConnCall.write [7, 7]])) ∧
    (RichConn.Read recordingConn ⟨Conn.tcpConn ⟨3, false⟩, 0⟩ ⟨1000⟩ [7, 7] []
        = ((⟨2, none⟩, [0, 0]), [ConnCall.setReadDeadline ⟨0⟩, ConnCall.read 2]) ∧
      RichConn.Write recordingConn ⟨Conn.tcpConn ⟨3, false⟩, 0⟩ ⟨1000⟩ [7, 7] []
        = (⟨2, none⟩, [ConnCall.setWriteDeadline ⟨0⟩, ConnCall.write [7, 7]])) :=
  ⟨RichConn_deadline recordingConn ⟨Conn.tcpConn ⟨3, false⟩, 30000000000⟩ ⟨1000⟩ [7, 7] []
      (by decide),
    RichConn_deadline recordingConn ⟨Conn.tcpConn ⟨3, false⟩, 0⟩ ⟨1000⟩ [7, 7] [] (by decide)⟩

/-! ## The `/rtsp/list` feed -/

theorem SyncMap_Range_collect (collection : SyncMap) :
    ∀ acc : List RTSPInfo,
      SyncMap.Range (fun _ value info => (true, info ++ [value.RTSPInfo])) collection acc
        = acc ++ collection.map (fun e => e.2.RTSPInfo) := by
  induction collection with
  | nil => intro acc; simp [SyncMap.Range]
  | cons e rest ih =>
    intro acc
    obtain ⟨key, value⟩ := e
    simp [SyncMap.Range, ih]

/-- C9: a snapshot of the `/rtsp/list` feed is the list of the `RTSPInfo` of
the entries of the registry, one per entry and in the order of the entries;
its length is the number of entries, and it is empty for an empty registry. -/
theorem listSnapshot_eq (collection : SyncMap) :
    listSnapshot collection = collection.map (fun e => e.2.RTSPInfo) ∧
      (listSnapshot collection).length = collection.length ∧
      listSnapshot [] = [] := by
  have h := SyncMap_Range_collect collection []
  simp only [List.nil_append] at h
  refine ⟨h, ?_, rfl⟩
  unfold listSnapshot
  rw [h, List.length_map]

/-! ## The subscribe hook -/

theorem replaceScan_skip (old new : List Char) :
    ∀ (xs rest : List Char),
      replaceScan old new xs.length (xs ++ rest) = replaceScan old new 0 rest := by
  intro xs
  induction xs with
  | nil => intro rest; rfl
  | cons x xs ih =>
    intro rest
    simp only [List.length_cons, List.cons_append, replaceScan]
    exact ih rest

theorem replaceScan_zero_cons (old new : List Char) (c : Char) (cs : List Char) :
    replaceScan old new 0 (c :: cs) =
      if old.isPrefixOf (c :: cs) = true then new ++ replaceScan old new (old.length - 1) cs
      else c :: replaceScan old new 0 cs := rfl

theorem replaceScan_occurrence (o : Char) (os new rest : List Char) :
    replaceScan (o :: os) new 0 ((o :: os) ++ rest)
      = new ++ replaceScan (o :: os) new 0 rest := by
  have hp : (o :: os).isPrefixOf (o :: (os ++ rest)) = true := by
    rw [List.isPrefixOf_iff_prefix]
    exact List.prefix_append (o :: os) rest
  rw [List.cons_append, replaceScan_zero_cons, if_pos hp]
  simp only [List.length_cons, Nat.add_sub_cancel]
  rw [replaceScan_skip]

theorem replaceScan_no_straddle (o : Char) (os : List Char) (ho : o ∉ os) (c : Char)
    (seg rest : List Char) (hseg : ¬ (o :: os) <:+: (c :: seg))
    (hrest : rest = [] ∨ ∃ r, rest = (o :: os) ++ r) :
    ¬ (o :: os) <+: (c :: seg) ++ rest := by
  intro hpre
  have hself : (c :: seg) <+: (c :: seg) ++ rest := List.prefix_append _ _
  rcases Nat.le_total (o :: os).length (c :: seg).length with hl | hl
  · exact hseg (List.IsPrefix.isInfix (List.prefix_of_prefix_length_le hpre hself hl))
  · obtain ⟨p, hp⟩ := List.prefix_of_prefix_length_le hself hpre hl
    have hp2 : p <+: rest := by
      rw [← hp] at hpre
      exact (List.prefix_append_right_inj (c :: seg)).mp hpre
    have hpne : p ≠ [] := by
      intro e
      rw [e, List.append_nil] at hp
      exact hseg (hp ▸ List.infix_refl _)
    have hplen : p.length ≤ (o :: os).length := by
      have := congrArg List.length hp
      simp only [List.length_append, List.length_cons] at this ⊢
      omega
    rcases hrest with hr | ⟨r, hr⟩
    · rw [hr] at hp2
      exact hpne (List.prefix_nil.mp hp2)
    · rw [hr] at hp2
      have hp3 : p <+: o :: os :=
        List.prefix_of_prefix_length_le hp2 (List.prefix_append _ _) hplen
      cases p with
      | nil => exact hpne rfl
      | cons x p1 =>
        obtain ⟨q, hq⟩ := hp3
        simp only [List.cons_append, List.cons.injEq] at hq hp
        obtain ⟨hx, _⟩ := hq
        obtain ⟨_, hos⟩ := hp
        apply ho
        rw [← hos, hx]
        simp

theorem replaceScan_segment (o : Char) (os new : List Char) (ho : o ∉ os) :
    ∀ (seg rest : List Char), ¬ (o :: os) <:+: seg →
      (rest = [] ∨ ∃ r, rest = (o :: os) ++ r) →
      replaceScan (o :: os) new 0 (seg ++ rest) = seg ++ replaceScan (o :: os) new 0 rest := by
  intro seg
  induction seg with
  | nil => intro rest _ _; rfl
  | cons c seg ih =>
    intro rest h hrest
    have hseg : ¬ (o :: os) <:+: seg := fun e => h (List.infix_cons e)
    have hp : ¬ (o :: os).isPrefixOf (c :: (seg ++ rest)) = true := by
      rw [List.isPrefixOf_iff_prefix]
      exact replaceScan_no_straddle o os ho c seg rest h hrest
    rw [List.cons_append, replaceScan_zero_cons, if_neg hp, ih rest hseg hrest, List.cons_append]

theorem replaceScan_joinWith (o : Char) (os new : List Char) (ho : o ∉ os) :
    ∀ (segs : List (List Char)), (∀ seg ∈ segs, ¬ (o :: os) <:+: seg) →
      replaceScan (o :: os) new 0 (joinWith (o :: os) segs) = joinWith new segs := by
  intro segs
  induction segs with
  | nil => intro _; rfl
  | cons a tail ih =>
    intro h
    have ha : ¬ (o :: os) <:+: a := h a (by simp)
    have ht : ∀ seg ∈ tail, ¬ (o :: os) <:+: seg := fun seg hm => h seg (by simp [hm])
    cases tail with
    | nil =>
      have := replaceScan_segment o os new ho a [] ha (Or.inl rfl)
      simpa [joinWith, replaceScan] using this
    | cons b rest =>
      simp only [joinWith, List.append_assoc]
      rw [replaceScan_segment o os new ho a _ ha (Or.inr ⟨_, rfl⟩), replaceScan_occurrence,
        ih ht]

/-- C7 as stated fails in its example: for the stream path `/camX` the
target is the template with the placeholder replaced by `/camX`, which is
not the template with the placeholder replaced by `camX`. -/
theorem onSubscribe_camX_counterexample :
    (onSubscribe { config with AutoPull := true } ⟨"/camX", none⟩).map PullCall.rtspUrl
        = ["rtsp://localhost//camX"] ∧
      (onSubscribe { config with AutoPull := true } ⟨"/camX", none⟩).map PullCall.rtspUrl
        ≠ [replaceAll config.RemoteAddr streamPathVar "camX"] := by
  decide

/-- C7 as amended: the hook calls `PullStream` exactly when `AutoPull` is on
and the subscriber has no publisher, and then once, for the subscriber's
stream path; when the remote-address template is the pieces `segs`, none
holding the placeholder, with the placeholder between each two of them, the
target is the same pieces with the stream path, as it is, between each two
of them: every occurrence of the placeholder is replaced by the stream path. -/
theorem onSubscribe_pull (cfg : Config) (s : Subscriber) (segs : List (List Char))
    (hsegs : ∀ seg ∈ segs, ¬ streamPathVar.data <:+: seg)
    (htmpl : cfg.RemoteAddr.data = joinWith streamPathVar.data segs) :
    onSubscribe cfg s =
      if cfg.AutoPull = true ∧ s.Publisher = none then
        [⟨s.StreamPath, String.mk (joinWith s.StreamPath.data segs)⟩]
      else [] := by
  have hvar : streamPathVar.data = '$' :: "\x7bstreamPath\x7d".data := by decide
  have ho : '$' ∉ "\x7bstreamPath\x7d".data := by decide
  have hrep : replaceAll cfg.RemoteAddr streamPathVar s.StreamPath
      = String.mk (joinWith s.StreamPath.data segs) := by
    unfold replaceAll
    by_cases he : streamPathVar = s.StreamPath
    · rw [if_pos he, ← he, ← htmpl]
    · rw [hvar] at hsegs
      rw [if_neg he, htmpl, hvar, replaceScan_joinWith _ _ _ ho segs hsegs]
  unfold onSubscribe
  rw [hrep]
  cases cfg.AutoPull <;> cases s.Publisher <;> simp

/-- C7 as amended, an instance: with the initial template and `AutoPull` on,
a subscriber of `/camX` without a publisher gives one pull, of `/camX`, from
`rtsp://localhost//camX`. -/
theorem onSubscribe_pull_witness :
    onSubscribe { config with AutoPull := true } ⟨"/camX", none⟩
      = [⟨"/camX", "rtsp://localhost//camX"⟩] :=
  (onSubscribe_pull { config with AutoPull := true } ⟨"/camX", none⟩
    ["rtsp://localhost/".data, []] (by decide) (by decide)).trans (by decide)

/-! ## The `/rtsp/pull` endpoint -/

theorem pullHandler_success (PullStream : String → String → Option String)
    (target streamPath : String) (h : PullStream streamPath target = none) :
    pullHandler PullStream target streamPath = "\x7b\"code\":0\x7d" := by
  simp [pullHandler, h]

theorem readStatus_success : readStatus "\x7b\"code\":0\x7d" = some (0, none) := by decide

theorem readStatus_plain_message :
    readStatus (pullHandler (fun _ _ => some "dial tcp: i/o timeout") "rtsp://a/b" "live/cam")
      = some (1, some "dial tcp: i/o timeout") := by
  decide

/-- C8, the code at the failing input: when `PullStream` fails with a message
that holds double quotes, here the message of a URL that does not parse, the
body written is the message between quotes as it is, which is not a
well-formed JSON object. -/
theorem pullHandler_quoted_message :
    pullHandler (fun _ target => some ("parse \"" ++ target ++ "\": invalid URI"))
        "rtsp://a b" "live/cam"
        = "\x7b\"code\":1,\"msg\":\"parse \"rtsp://a b\": invalid URI\"\x7d" ∧
      readStatus (pullHandler (fun _ target => some ("parse \"" ++ target ++ "\": invalid URI"))
        "rtsp://a b" "live/cam") = none := by
  decide

end Rtsp
